import Mathlib

/-!
Verification of the sockdiag netlink sampler (src/node/sockdiag.c,
src/node/sockdiag.h): a shallow embedding of the request builder
(send_request), the growable sample store (grow and the append performed in
parse_response), the attribute walker (parse_response with the RTA_OK,
RTA_DATA and RTA_NEXT macros), and the receive loop (sockdiag_sample with
the NLMSG_OK, NLMSG_DATA and NLMSG_NEXT macros).

Numbers: the C fields are fixed-width (uint8/uint16/uint32/int); they are
modelled as Nat and Int. In every behaviour the claims quantify over, the
values stay far below any wrap boundary: the store's uint32 len and cap
could only wrap after 2^31 grown slots, long after realloc has failed
(the fallible-allocation model below covers that failure), so overflow is
not modelled on them. Signed byte counts (rtalen, the remaining receive
length n) are Int, as in the C.
-/

/-! ## Constants from the Linux headers used by sockdiag.c -/

def AF_INET : Nat := 2
def AF_INET6 : Nat := 10
def IPPROTO_TCP : Nat := 6
def TCP_ESTABLISHED : Nat := 1
def INET_DIAG_INFO : Nat := 2
def SOCK_DIAG_BY_FAMILY : Nat := 20
def NLM_F_REQUEST : Nat := 0x1
def NLM_F_DUMP : Nat := 0x300
def NLMSG_DONE : Nat := 3
def NLMSG_ERROR : Nat := 2
def ENODATA : Int := 61

/-- NLMSG_ALIGN: round a byte count up to the 4-byte netlink alignment. -/
def NLMSG_ALIGN (x : Nat) : Nat := (x + 3) / 4 * 4

/-- NLMSG_HDRLEN = NLMSG_ALIGN(sizeof(struct nlmsghdr)) = 16. -/
def NLMSG_HDRLEN : Nat := 16

/-- NLMSG_LENGTH(len) = len + NLMSG_HDRLEN. -/
def NLMSG_LENGTH (x : Nat) : Nat := x + NLMSG_HDRLEN

/-- RTA_ALIGN: round a byte count up to the 4-byte attribute alignment. -/
def RTA_ALIGN (x : Nat) : Nat := (x + 3) / 4 * 4

/-- sizeof(struct nlmsgerr) = 4 (int error) + 16 (struct nlmsghdr msg). -/
def sizeof_nlmsgerr : Nat := 20

/-- sizeof(struct inet_diag_msg) = 4 + 48 (inet_diag_sockid) + 20. -/
def sizeof_inet_diag_msg : Nat := 72

/-- sizeof(struct inet_diag_req_v2) = 8 + 48 (inet_diag_sockid). -/
def sizeof_inet_diag_req_v2 : Nat := 56

/-- htons on a 16-bit value as read on the little-endian host: swap the two
bytes.  The same function also models ntohs (the two coincide). -/
def htons (x : Nat) : Nat := x % 256 * 256 + x / 256 % 256

/-! ## Data model (sockdiag.h) -/

/-- struct sample (sockdiag.h).  The addresses are 16-byte arrays; the
tcp_info block is copied verbatim and never interpreted, so it is modelled
as an opaque Nat payload. -/
structure Sample where
  family : Nat
  saddr : List Nat
  sport : Nat
  daddr : List Nat
  dport : Nat
  info : Nat
deriving DecidableEq, Repr

/-- struct samples (sockdiag.h).  The field sample models the written
prefix of the backing array: slot i holds the i-th appended record for
i < len; slots from len to cap are uninitialized in the C and never read,
so they are not represented. -/
structure Samples where
  sample : List Sample
  len : Nat
  cap : Nat
deriving DecidableEq, Repr

/-! ## Growable store (grow, and the append in parse_response) -/

def INIT_CAP : Nat := 16

/-- grow (sockdiag.c): capacity goes from 0 to INIT_CAP, otherwise
doubles; realloc preserves the written prefix.  This is the model in which
the reallocation succeeds; growAlloc below models the failing realloc. -/
def grow (s : Samples) : Samples :=
  { s with cap := if s.cap = 0 then INIT_CAP else s.cap * 2 }

/-- The append performed inside parse_response: grow when len has reached
cap, then write the record at index len and increment len. -/
def appendSample (s : Samples) (x : Sample) : Samples :=
  let t := if s.len ≥ s.cap then grow s else s
  { t with sample := t.sample ++ [x], len := t.len + 1 }

/-- Folding appendSample over a list of records, for reasoning about a
sequence of appends. -/
def appendAll (s : Samples) (xs : List Sample) : Samples :=
  xs.foldl appendSample s

/-- The all-zero store: the state written by the reset
in sockdiag_sample. -/
def emptySamples : Samples := { sample := [], len := 0, cap := 0 }

/-- The store sockdiag_sample hands to the receive loop: reset to zero and
grown once, so len = 0 and cap = INIT_CAP. -/
def store0 : Samples := grow emptySamples

/-! ## Fallible-allocation model of grow (for the realloc-failure path)

grow assigns realloc's result to samples->sample without checking it.  To
examine that path the backing pointer is modelled as an Option: none is
the NULL pointer realloc returns on failure. -/

/-- struct samples with the backing pointer made explicit: none models a
NULL sample pointer. -/
structure SamplesAlloc where
  backing : Option (List Sample)
  len : Nat
  cap : Nat
deriving DecidableEq, Repr

/-- grow with the allocation outcome explicit.  The C function returns
void: it signals nothing on failure, it just stores realloc's result -
NULL when allocation fails - into samples->sample and updates cap. -/
def growAlloc (allocOk : Bool) (s : SamplesAlloc) : SamplesAlloc :=
  { backing := if allocOk then s.backing else none
    len := s.len
    cap := if s.cap = 0 then INIT_CAP else s.cap * 2 }

/-- The append in parse_response over the explicit-pointer store: after a
possible grow, the write samples->sample[samples->len] dereferences the
backing pointer; none is returned when that pointer is NULL (the write is
undefined behaviour - the process crashes; no error code is produced). -/
def appendAlloc (allocOk : Bool) (s : SamplesAlloc) (x : Sample) :
    Option SamplesAlloc :=
  let t := if s.len ≥ s.cap then growAlloc allocOk s else s
  match t.backing with
  | none => none
  | some l => some { t with backing := some (l ++ [x]), len := t.len + 1 }

/-! ## Wire records (linux/inet_diag.h views of the received bytes) -/

/-- struct inet_diag_sockid: ports are the 16-bit values as read from the
struct by the host (the wire stores them big-endian, so the code applies
htons); addresses are the 16 raw bytes of idiag_src / idiag_dst. -/
structure inet_diag_sockid where
  idiag_sport : Nat
  idiag_dport : Nat
  idiag_src : List Nat
  idiag_dst : List Nat
deriving DecidableEq, Repr

/-- struct inet_diag_msg: only the fields parse_response reads. -/
structure inet_diag_msg where
  idiag_family : Nat
  id : inet_diag_sockid
deriving DecidableEq, Repr

/-- struct rtattr together with the bytes at RTA_DATA: rta_len and
rta_type are the declared header fields; payload is the tcp_info block the
code copies when the type matches (opaque, so a Nat). -/
structure rtattr where
  rta_len : Nat
  rta_type : Nat
  payload : Nat
deriving DecidableEq, Repr

/-- RTA_OK(attr, rtalen): at least a header's worth of bytes remain, the
declared length covers at least the header, and it does not run past the
remaining bytes. -/
def RTA_OKb (a : rtattr) (rtalen : Int) : Bool :=
  4 ≤ rtalen && 4 ≤ a.rta_len && (a.rta_len : Int) ≤ rtalen

/-- The sample record built in parse_response: zero-initialized addresses,
al = 4 bytes copied for AF_INET and 16 otherwise, ports through htons,
tcp_info copied verbatim. -/
def mkSample (msg : inet_diag_msg) (t : Nat) : Sample :=
  let al := if msg.idiag_family = AF_INET then 4 else 16
  { family := msg.idiag_family
    saddr := msg.id.idiag_src.take al ++ List.replicate (16 - al) 0
    sport := htons msg.id.idiag_sport
    daddr := msg.id.idiag_dst.take al ++ List.replicate (16 - al) 0
    dport := htons msg.id.idiag_dport
    info := t }

/-- The attribute loop of parse_response: while RTA_OK holds, append a
sample for each INET_DIAG_INFO attribute, skip every other type, and step
with RTA_NEXT (consume RTA_ALIGN(rta_len) bytes). -/
def parseAttrs (msg : inet_diag_msg) :
    List rtattr → Int → Samples → Samples
  | [], _, s => s
  | a :: rest, rtalen, s =>
    if RTA_OKb a rtalen then
      let s1 := if a.rta_type = INET_DIAG_INFO then
          appendSample s (mkSample msg a.payload)
        else s
      parseAttrs msg rest (rtalen - (RTA_ALIGN a.rta_len : Int)) s1
    else s

/-- parse_response (sockdiag.c): walk the attribute region that follows
the inet_diag_msg record. -/
def parse_response (msg : inet_diag_msg) (attrs : List rtattr)
    (rtalen : Int) (s : Samples) : Samples :=
  parseAttrs msg attrs rtalen s

/-! ## Receive loop (sockdiag_sample) -/

/-- One netlink envelope as found in a received datagram: the declared
header fields, plus the payload bytes viewed both as a struct nlmsgerr
(err, read only when nlmsg_type = NLMSG_ERROR) and as a struct
inet_diag_msg followed by attributes (read for any other type), just as
the C reinterprets NLMSG_DATA. -/
structure nlmsg where
  nlmsg_len : Nat
  nlmsg_type : Nat
  err : Int
  msg : inet_diag_msg
  attrs : List rtattr
deriving DecidableEq, Repr

/-- NLMSG_OK(h, n): a header's worth of bytes remain, the declared length
covers at least the header and does not run past the remaining bytes. -/
def NLMSG_OKb (h : nlmsg) (n : Int) : Bool :=
  (NLMSG_HDRLEN : Int) ≤ n && NLMSG_HDRLEN ≤ h.nlmsg_len &&
    (h.nlmsg_len : Int) ≤ n

/-- Outcome of walking the envelopes of one datagram. -/
inductive LoopSignal where
  | done
  | fail (errno : Int)
  | more
deriving DecidableEq, Repr

/-- The inner while (NLMSG_OK) loop of sockdiag_sample: NLMSG_DONE
returns 0; NLMSG_ERROR sets errno (ENODATA when the envelope is shorter
than NLMSG_LENGTH(sizeof(struct nlmsgerr)), otherwise the negated
embedded field) and returns -1; any other envelope is handed to
parse_response when its body extends past the inet_diag_msg record, and
the walk steps with NLMSG_NEXT. -/
def processMsgs : List nlmsg → Int → Samples → LoopSignal × Samples
  | [], _, s => (.more, s)
  | h :: rest, n, s =>
    if NLMSG_OKb h n then
      if h.nlmsg_type = NLMSG_DONE then (.done, s)
      else if h.nlmsg_type = NLMSG_ERROR then
        if h.nlmsg_len < NLMSG_LENGTH sizeof_nlmsgerr then (.fail ENODATA, s)
        else (.fail (-h.err), s)
      else
        let rl : Int := (h.nlmsg_len : Int) -
          (NLMSG_LENGTH sizeof_inet_diag_msg : Int)
        let s1 := if 0 < rl then parse_response h.msg h.attrs rl s else s
        processMsgs rest (n - (NLMSG_ALIGN h.nlmsg_len : Int)) s1
    else (.more, s)

/-- One successful recv: the byte count it returned and the envelopes in
the buffer. -/
structure datagram where
  n : Nat
  msgs : List nlmsg
deriving DecidableEq, Repr

/-- Result of sockdiag_sample, with the store the caller's struct holds on
return.  ok is return 0; the other three are the return -1 paths
(send_request failed, recv failed, NLMSG_ERROR envelope with errno). -/
inductive SampleResult where
  | ok (s : Samples)
  | sendError (s : Samples)
  | recvError (s : Samples)
  | protoError (errno : Int) (s : Samples)
deriving DecidableEq, Repr

/-- Return value of sockdiag_sample for each result. -/
def retcode : SampleResult → Int
  | .ok _ => 0
  | .sendError _ => -1
  | .recvError _ => -1
  | .protoError _ _ => -1

/-- The outer while (1) loop: each iteration consumes one datagram from
the stream; an exhausted stream is a recv that returns -1 (e.g. the 1s
timeout). -/
def sockdiagLoop : List datagram → Samples → SampleResult
  | [], s => .recvError s
  | d :: rest, s =>
    match processMsgs d.msgs (d.n : Int) s with
    | (.done, s1) => .ok s1
    | (.fail e, s1) => .protoError e s1
    | (.more, s1) => sockdiagLoop rest s1

/-- sockdiag_sample (sockdiag.c): if send_request fails, return -1 at
once - the caller's samples struct has not been touched yet.  Otherwise
zero the struct, grow it once, and drain datagrams until NLMSG_DONE.
sendOk models the sign of send_request's return; dgrams the successive
recv results. -/
def sockdiag_sample (sendOk : Bool) (dgrams : List datagram)
    (samples : Samples) : SampleResult :=
  if sendOk then sockdiagLoop dgrams store0 else .sendError samples

/-! ## Request construction (send_request) -/

/-- struct inet_diag_req_v2, the fields send_request sets. -/
structure inet_diag_req_v2 where
  sdiag_family : Nat
  sdiag_protocol : Nat
  idiag_ext : Nat
  idiag_states : Nat
deriving DecidableEq, Repr

/-- struct nlmsghdr as filled for the request. -/
structure nlmsghdr_req where
  nlmsg_len : Nat
  nlmsg_type : Nat
  nlmsg_flags : Nat
deriving DecidableEq, Repr

/-- send_request (sockdiag.c): the single fixed-size message it builds
before handing it to sendmsg.  Construction is a total function of the
family - only the sendmsg call can fail. -/
def send_request (family : Nat) : nlmsghdr_req × inet_diag_req_v2 :=
  ({ nlmsg_len := NLMSG_LENGTH sizeof_inet_diag_req_v2
     nlmsg_type := SOCK_DIAG_BY_FAMILY
     nlmsg_flags := NLM_F_DUMP ||| NLM_F_REQUEST },
   { sdiag_family := family
     sdiag_protocol := IPPROTO_TCP
     idiag_ext := 1 <<< (INET_DIAG_INFO - 1)
     idiag_states := 1 <<< TCP_ESTABLISHED })

/-! ## Concrete fixtures used by witnesses and counterexamples -/

/-- An all-zero sample record. -/
def sample0 : Sample :=
  { family := 0, saddr := List.replicate 16 0, sport := 0
    daddr := List.replicate 16 0, dport := 0, info := 0 }

/-- An all-zero socket id. -/
def sockid0 : inet_diag_sockid :=
  { idiag_sport := 0, idiag_dport := 0
    idiag_src := List.replicate 16 0, idiag_dst := List.replicate 16 0 }

/-- An all-zero connection record. -/
def diag0 : inet_diag_msg := { idiag_family := 0, id := sockid0 }

/-- An NLMSG_DONE envelope of header-only size. -/
def nlDone : nlmsg :=
  { nlmsg_len := 16, nlmsg_type := NLMSG_DONE, err := 0
    msg := diag0, attrs := [] }

/-! ## Helper lemmas about the store -/

lemma grow_sample (s : Samples) : (grow s).sample = s.sample := rfl

lemma grow_len (s : Samples) : (grow s).len = s.len := rfl

lemma appendSample_sample (s : Samples) (x : Sample) :
    (appendSample s x).sample = s.sample ++ [x] := by
  unfold appendSample
  split <;> rfl

lemma appendSample_len (s : Samples) (x : Sample) :
    (appendSample s x).len = s.len + 1 := by
  unfold appendSample
  split <;> rfl

lemma appendSample_cap_of_lt (s : Samples) (x : Sample) (h : s.len < s.cap) :
    (appendSample s x).cap = s.cap := by
  unfold appendSample
  rw [if_neg (by omega)]

lemma appendSample_cap_of_eq (s : Samples) (x : Sample) (h : s.len = s.cap) :
    (appendSample s x).cap = (grow s).cap := by
  unfold appendSample
  rw [if_pos (by omega)]

lemma appendAll_nil (s : Samples) : appendAll s [] = s := rfl

lemma appendAll_cons (s : Samples) (x : Sample) (xs : List Sample) :
    appendAll s (x :: xs) = appendAll (appendSample s x) xs := rfl

lemma appendAll_sample (xs : List Sample) :
    ∀ s : Samples, (appendAll s xs).sample = s.sample ++ xs := by
  induction xs with
  | nil => intro s; simp [appendAll_nil]
  | cons x rest ih =>
    intro s
    rw [appendAll_cons, ih, appendSample_sample]
    simp

lemma appendAll_len (xs : List Sample) :
    ∀ s : Samples, (appendAll s xs).len = s.len + xs.length := by
  induction xs with
  | nil => intro s; simp [appendAll_nil]
  | cons x rest ih =>
    intro s
    rw [appendAll_cons, ih, appendSample_len]
    simp [Nat.add_assoc, Nat.add_comm 1]

lemma appendAll_cap_of_le (xs : List Sample) :
    ∀ s : Samples, s.len + xs.length ≤ s.cap → (appendAll s xs).cap = s.cap := by
  induction xs with
  | nil => intro s _; rfl
  | cons x rest ih =>
    intro s h
    simp only [List.length_cons] at h
    have hlt : s.len < s.cap := by omega
    rw [appendAll_cons, ih (appendSample s x)
      (by rw [appendSample_len, appendSample_cap_of_lt s x hlt]; omega),
      appendSample_cap_of_lt s x hlt]

/-- The shape every reachable capacity has: zero before the first growth,
then 16 times a power of two. -/
def capShape (c : Nat) : Prop := c = 0 ∨ ∃ k, c = 16 * 2 ^ k

lemma grow_capShape (s : Samples) (h : capShape s.cap) :
    capShape (grow s).cap := by
  unfold grow capShape
  rcases h with h0 | ⟨k, hk⟩
  · simp [h0, INIT_CAP]
    exact ⟨0, by norm_num⟩
  · by_cases hz : s.cap = 0
    · simp [hz, INIT_CAP]
      exact ⟨0, by norm_num⟩
    · rw [if_neg hz]
      exact Or.inr ⟨k + 1, by rw [hk]; ring⟩

lemma appendSample_capShape (s : Samples) (x : Sample) (h : capShape s.cap) :
    capShape (appendSample s x).cap := by
  unfold appendSample
  split
  · exact grow_capShape s h
  · exact h

lemma appendAll_capShape (xs : List Sample) :
    ∀ s : Samples, capShape s.cap → capShape (appendAll s xs).cap := by
  induction xs with
  | nil => intro s h; exact h
  | cons x rest ih =>
    intro s h
    rw [appendAll_cons]
    exact ih _ (appendSample_capShape s x h)

/-- C3: a sequence of N appends to an initially empty store yields length
N with every element retrievable unchanged at its append position; the
capacity is set to 16 by the first growth and doubles on each later one,
growth happens only when length has reached capacity (so the capacity
stays 16 through the first 16 appends), and growth never loses any stored
element. -/
theorem c3_append_store (xs : List Sample) :
    (appendAll emptySamples xs).len = xs.length ∧
    (appendAll emptySamples xs).sample = xs ∧
    (∀ i, i < xs.length →
      (appendAll emptySamples xs).sample.getD i sample0 = xs.getD i sample0) ∧
    (∀ s : Samples, ∀ x, s.len < s.cap → (appendSample s x).cap = s.cap) ∧
    (∀ s : Samples, ∀ x, s.len = s.cap →
      (appendSample s x).cap = (grow s).cap) ∧
    (grow emptySamples).cap = 16 ∧
    (∀ s : Samples, s.cap ≠ 0 → (grow s).cap = 2 * s.cap) ∧
    (∀ s : Samples, (grow s).sample = s.sample ∧ (grow s).len = s.len) ∧
    (xs.length ≤ 16 → (appendAll emptySamples xs).cap ≤ 16) ∧
    capShape (appendAll emptySamples xs).cap := by
  have hs : (appendAll emptySamples xs).sample = xs := by
    rw [appendAll_sample]; rfl
  refine ⟨?_, hs, ?_, ?_, ?_, rfl, ?_, ?_, ?_, ?_⟩
  · rw [appendAll_len]; simp [emptySamples]
  · intro i _; rw [hs]
  · intro s x h; exact appendSample_cap_of_lt s x h
  · intro s x h; exact appendSample_cap_of_eq s x h
  · intro s h; unfold grow; rw [if_neg h]; exact Nat.mul_comm s.cap 2
  · intro s; exact ⟨rfl, rfl⟩
  · intro h
    match xs with
    | [] => decide
    | x :: rest =>
      rw [appendAll_cons]
      have hx : appendSample emptySamples x =
          { sample := [x], len := 1, cap := 16 } := rfl
      rw [hx, appendAll_cap_of_le rest _ (by
        simp only [List.length_cons] at h
        show 1 + rest.length ≤ 16
        omega)]
  · exact appendAll_capShape xs emptySamples (Or.inl rfl)

/-- C3 witness: the 17 instance of the theorem, plus its growth clauses
discharged at the store the driver starts from. -/
theorem c3_append_store_witness :
    (appendAll emptySamples (List.replicate 17 sample0)).len = 17 ∧
    (appendSample store0 sample0).cap = store0.cap ∧
    (appendAll emptySamples (List.replicate 16 sample0)).cap ≤ 16 := by
  obtain ⟨h1, -, -, h4, -, -, -, -, -, -⟩ :=
    c3_append_store (List.replicate 17 sample0)
  obtain ⟨-, -, -, -, -, -, -, -, h9, -⟩ :=
    c3_append_store (List.replicate 16 sample0)
  exact ⟨by simpa using h1, h4 store0 sample0 (by decide), h9 (by decide)⟩

/-! ## C1: the realloc-failure path of grow -/

/-- A store whose 16 slots are all written: the next append must grow. -/
def fullStore : SamplesAlloc :=
  { backing := some (List.replicate 16 sample0), len := 16, cap := 16 }

/-- C1 (code behaviour at the failing input): when the append at a full
store triggers grow and the reallocation fails, grow returns normally -
its void return carries no error indication - having stored the NULL
result and the doubled capacity into the struct, and the append then
writes through the NULL backing pointer (the none outcome: a crash, not a
propagated out-of-memory error and not a silent truncation). -/
theorem c1_realloc_unchecked :
    appendAlloc false fullStore sample0 = none ∧
    growAlloc false fullStore =
      { backing := none, len := 16, cap := 32 } := by
  constructor <;> rfl

/-! ## C2: the NLMSG_ERROR envelope -/

/-- C2 counterexample: an error envelope of exactly the minimum error
size whose embedded field holds 5 makes the call fail with reported code
-5, not 5 - the embedded numeric value is negated, not reported
verbatim. -/
theorem c2_counterexample :
    sockdiag_sample true
        [⟨36, [⟨36, NLMSG_ERROR, 5, diag0, []⟩]⟩] store0 =
      .protoError (-5) store0 ∧
    (-5 : Int) ≠ 5 :=
  ⟨rfl, by decide⟩

/-- C2 amended: an error envelope shorter than
NLMSG_LENGTH(sizeof(struct nlmsgerr)) = 36 bytes makes the call fail with
the generic ENODATA code; otherwise the call fails with the negation of
the embedded field (netlink carries errno values negated), so for
embedded field value E the reported code is -E.  Either way the call
returns -1 and performs no further processing. -/
theorem c2_amended (E : Int) (mm : inet_diag_msg) (ats : List rtattr)
    (len n : Nat) (more : List nlmsg) (rest : List datagram) (s : Samples)
    (h16 : 16 ≤ len) (hn : len ≤ n) :
    (36 ≤ len →
      sockdiag_sample true (⟨n, ⟨len, NLMSG_ERROR, E, mm, ats⟩ :: more⟩ :: rest) s =
        .protoError (-E) store0) ∧
    (len < 36 →
      sockdiag_sample true (⟨n, ⟨len, NLMSG_ERROR, E, mm, ats⟩ :: more⟩ :: rest) s =
        .protoError ENODATA store0) ∧
    retcode (.protoError (-E) store0) = -1 ∧
    retcode (.protoError ENODATA store0) = -1 := by
  have hok : NLMSG_OKb ⟨len, NLMSG_ERROR, E, mm, ats⟩ (n : Int) = true := by
    simp only [NLMSG_OKb, NLMSG_HDRLEN, Bool.and_eq_true, decide_eq_true_eq]
    refine ⟨⟨?_, h16⟩, ?_⟩ <;> omega
  have hstep : ∀ sig : LoopSignal,
      processMsgs (⟨len, NLMSG_ERROR, E, mm, ats⟩ :: more) (n : Int) store0 =
        (sig, store0) →
      sockdiag_sample true (⟨n, ⟨len, NLMSG_ERROR, E, mm, ats⟩ :: more⟩ :: rest) s =
        (match sig with
          | .done => .ok store0
          | .fail e => .protoError e store0
          | .more => sockdiagLoop rest store0) := by
    intro sig hp
    show sockdiagLoop _ store0 = _
    simp only [sockdiagLoop, hp]
    cases sig <;> rfl
  refine ⟨?_, ?_, rfl, rfl⟩
  · intro h36
    refine hstep (.fail (-E)) ?_
    simp only [processMsgs, hok, if_true]
    norm_num [NLMSG_ERROR, NLMSG_DONE, NLMSG_LENGTH, NLMSG_HDRLEN,
      sizeof_nlmsgerr]
    omega
  · intro h36
    refine hstep (.fail ENODATA) ?_
    simp only [processMsgs, hok, if_true]
    norm_num [NLMSG_ERROR, NLMSG_DONE, NLMSG_LENGTH, NLMSG_HDRLEN,
      sizeof_nlmsgerr]
    omega

/-- C2 amended witness: the two branches at concrete envelopes (length 36
with embedded field 7; length 20). -/
theorem c2_amended_witness :
    sockdiag_sample true [⟨36, [⟨36, NLMSG_ERROR, 7, diag0, []⟩]⟩] store0 =
      .protoError (-7) store0 ∧
    sockdiag_sample true [⟨20, [⟨20, NLMSG_ERROR, 7, diag0, []⟩]⟩] store0 =
      .protoError ENODATA store0 := by
  have h36 := c2_amended 7 diag0 [] 36 36 [] [] store0 (by norm_num) (by norm_num)
  have h20 := c2_amended 7 diag0 [] 20 20 [] [] store0 (by norm_num) (by norm_num)
  exact ⟨h36.1 (by norm_num), h20.2.1 (by norm_num)⟩

/-! ## C6: order of reset and send in sockdiag_sample -/

/-- A caller struct still holding three records from an earlier call. -/
def dirtyStore : Samples :=
  { sample := [sample0, sample0, sample0], len := 3, cap := 16 }

/-- C6 counterexample: a sampling call whose send fails returns with the
caller's store still holding its prior three records - so the store was
not reset before the send; sockdiag_sample sends first and resets only
after a successful send. -/
theorem c6_counterexample :
    sockdiag_sample false [] dirtyStore = .sendError dirtyStore ∧
    dirtyStore.len ≠ 0 :=
  ⟨rfl, by decide⟩

/-- C6 amended: every sampling call whose send succeeds resets the store
to the empty, zero-length (and once-grown) state before any receive, and
its outcome is independent of the caller's prior store contents - so two
consecutive sampling calls on the same open session each start from an
empty store, with no samples leaking from the prior call.  (Only the
stated order is amended: the code sends first and resets after the send
succeeds.) -/
theorem c6_amended (dgrams : List datagram) (s s2 : Samples) :
    sockdiag_sample true dgrams s = sockdiagLoop dgrams store0 ∧
    store0.len = 0 ∧ store0.sample = [] ∧ store0.cap = 16 ∧
    sockdiag_sample true dgrams s = sockdiag_sample true dgrams s2 :=
  ⟨rfl, rfl, rfl, rfl, rfl⟩

/-! ## C9: send failure leaves the caller's struct untouched -/

/-- C9: when send_request fails, sockdiag_sample returns -1 at once and
the caller-supplied samples struct - pointer, length and capacity - is
exactly what it was before the call. -/
theorem c9_send_failure (dgrams : List datagram) (s : Samples) :
    sockdiag_sample false dgrams s = .sendError s ∧
    retcode (sockdiag_sample false dgrams s) = -1 :=
  ⟨rfl, rfl⟩

/-! ## Attribute-walk lemmas -/

lemma parseAttrs_stop (msg : inet_diag_msg) (a : rtattr) (rest : List rtattr)
    (rtalen : Int) (s : Samples) (h : ¬ RTA_OKb a rtalen = true) :
    parseAttrs msg (a :: rest) rtalen s = s := by
  simp only [parseAttrs, if_neg h]

lemma parseAttrs_ok (msg : inet_diag_msg) (a : rtattr) (rest : List rtattr)
    (rtalen : Int) (s : Samples) (h : RTA_OKb a rtalen = true) :
    parseAttrs msg (a :: rest) rtalen s =
      parseAttrs msg rest (rtalen - (RTA_ALIGN a.rta_len : Int))
        (if a.rta_type = INET_DIAG_INFO then
          appendSample s (mkSample msg a.payload) else s) := by
  simp only [parseAttrs, if_pos h]

/-- C4: for an envelope body holding one attribute that fits its region,
when the attribute is tagged INET_DIAG_INFO and the record's family is
AF_INET, parsing appends exactly one sample: family, ports and addresses
come from the enclosing record (ports through htons, the first 4 address
bytes copied), the tcp_info field is the attribute payload verbatim, and
address bytes 4..16 are zero; an attribute of any other tag is skipped
with the store unchanged and no error. -/
theorem c4_parse_info_attr (msg : inet_diag_msg) (a : rtattr) (rtalen : Int)
    (s : Samples)
    (hfam : msg.idiag_family = AF_INET)
    (hsrc : msg.id.idiag_src.length = 16)
    (hdst : msg.id.idiag_dst.length = 16)
    (hhdr : 4 ≤ a.rta_len) (hfit : (a.rta_len : Int) ≤ rtalen) :
    (a.rta_type = INET_DIAG_INFO →
      parse_response msg [a] rtalen s = appendSample s (mkSample msg a.payload) ∧
      (parse_response msg [a] rtalen s).sample =
        s.sample ++ [mkSample msg a.payload] ∧
      (parse_response msg [a] rtalen s).len = s.len + 1 ∧
      (mkSample msg a.payload).family = msg.idiag_family ∧
      (mkSample msg a.payload).sport = htons msg.id.idiag_sport ∧
      (mkSample msg a.payload).dport = htons msg.id.idiag_dport ∧
      (mkSample msg a.payload).saddr.take 4 = msg.id.idiag_src.take 4 ∧
      (mkSample msg a.payload).daddr.take 4 = msg.id.idiag_dst.take 4 ∧
      (mkSample msg a.payload).saddr.drop 4 = List.replicate 12 0 ∧
      (mkSample msg a.payload).daddr.drop 4 = List.replicate 12 0 ∧
      (mkSample msg a.payload).info = a.payload) ∧
    (a.rta_type ≠ INET_DIAG_INFO → parse_response msg [a] rtalen s = s) := by
  have hok : RTA_OKb a rtalen = true := by
    simp only [RTA_OKb, Bool.and_eq_true, decide_eq_true_eq]
    have h4 : (4 : Int) ≤ rtalen :=
      le_trans (by exact_mod_cast hhdr) hfit
    exact ⟨⟨h4, hhdr⟩, hfit⟩
  have hsa : (mkSample msg a.payload).saddr =
      msg.id.idiag_src.take 4 ++ List.replicate 12 0 := by
    simp [mkSample, hfam]
  have hda : (mkSample msg a.payload).daddr =
      msg.id.idiag_dst.take 4 ++ List.replicate 12 0 := by
    simp [mkSample, hfam]
  have hlen4s : (msg.id.idiag_src.take 4).length = 4 := by
    rw [List.length_take, hsrc]; omega
  have hlen4d : (msg.id.idiag_dst.take 4).length = 4 := by
    rw [List.length_take, hdst]; omega
  constructor
  · intro ht
    have e : parse_response msg [a] rtalen s =
        appendSample s (mkSample msg a.payload) := by
      unfold parse_response
      rw [parseAttrs_ok msg a [] rtalen s hok, if_pos ht]
      rfl
    refine ⟨e, ?_, ?_, rfl, rfl, rfl, ?_, ?_, ?_, ?_, rfl⟩
    · rw [e, appendSample_sample]
    · rw [e, appendSample_len]
    · rw [hsa, List.take_left' hlen4s]
    · rw [hda, List.take_left' hlen4d]
    · rw [hsa, List.drop_left' hlen4s]
    · rw [hda, List.drop_left' hlen4d]
  · intro ht
    unfold parse_response
    rw [parseAttrs_ok msg a [] rtalen s hok, if_neg ht]
    rfl

/-- The spec's concrete sockid: ports 40000 and 80 as the host reads them
off the wire (htons of each gives the host-order port), one fixed address
pair. -/
def sockidW : inet_diag_sockid :=
  { idiag_sport := 16540, idiag_dport := 20480
    idiag_src := [10, 0, 0, 1] ++ List.replicate 12 0
    idiag_dst := [10, 0, 0, 2] ++ List.replicate 12 0 }

/-- The spec's concrete IPv4 connection record. -/
def diagW : inet_diag_msg := { idiag_family := AF_INET, id := sockidW }

/-- An INET_DIAG_INFO attribute with a 104-byte payload region and opaque
payload 42. -/
def attrW : rtattr := { rta_len := 108, rta_type := INET_DIAG_INFO, payload := 42 }

/-- C4 witness: the theorem at the spec's concrete fixture; the decoded
ports are 40000 and 80 in host order. -/
theorem c4_parse_info_attr_witness :
    parse_response diagW [attrW] 108 store0 =
      appendSample store0 (mkSample diagW 42) ∧
    (mkSample diagW 42).sport = 40000 ∧
    (mkSample diagW 42).dport = 80 ∧
    (mkSample diagW 42).saddr.drop 4 = List.replicate 12 0 := by
  have h := c4_parse_info_attr diagW attrW 108 store0 (by decide) (by decide)
    (by decide) (by decide) (by decide)
  have h1 := h.1 (by decide)
  exact ⟨h1.1, h1.2.2.2.2.1, h1.2.2.2.2.2.1, h1.2.2.2.2.2.2.2.2.1⟩

/-- C5: an attribute whose declared length overruns the remaining
envelope bytes (or does not cover the attribute header, or arrives with
fewer than a header's worth of bytes remaining) stops the attribute walk
for that envelope with the store exactly as it was - no earlier sample is
modified - and a call whose envelope carries such an attribute still
completes successfully when the terminating envelope follows: it does not
abort or fail. -/
theorem c5_malformed_attr (msg : inet_diag_msg) (a : rtattr)
    (rest : List rtattr) (rtalen : Int) (s : Samples) :
    (rtalen < (a.rta_len : Int) ∨ a.rta_len < 4 ∨ rtalen < 4 →
      parse_response msg (a :: rest) rtalen s = s) ∧
    (4 < a.rta_len →
      sockdiagLoop
          [⟨108, [⟨92, SOCK_DIAG_BY_FAMILY, 0, msg, a :: rest⟩, nlDone]⟩] s =
        .ok s ∧
      retcode (sockdiagLoop
          [⟨108, [⟨92, SOCK_DIAG_BY_FAMILY, 0, msg, a :: rest⟩, nlDone]⟩] s) = 0) := by
  have hstop : ∀ rl : Int, ¬ RTA_OKb a rl = true →
      parse_response msg (a :: rest) rl s = s := by
    intro rl h
    exact parseAttrs_stop msg a rest rl s h
  constructor
  · intro hbad
    refine hstop rtalen ?_
    simp only [RTA_OKb, Bool.and_eq_true, decide_eq_true_eq, not_and]
    intro h1 h2
    rcases hbad with h | h | h <;> omega
  · intro hbig
    have key : parseAttrs msg (a :: rest) (4 : Int) s = s := by
      refine parseAttrs_stop msg a rest 4 s ?_
      simp only [RTA_OKb, Bool.and_eq_true, decide_eq_true_eq, not_and]
      intro h1 h2
      omega
    have e : sockdiagLoop
        [⟨108, [⟨92, SOCK_DIAG_BY_FAMILY, 0, msg, a :: rest⟩, nlDone]⟩] s =
        .ok (parseAttrs msg (a :: rest) (4 : Int) s) := by
      show sockdiagLoop _ s = _
      simp only [sockdiagLoop, processMsgs]
      norm_num [NLMSG_OKb, NLMSG_HDRLEN, SOCK_DIAG_BY_FAMILY, NLMSG_DONE,
        NLMSG_ERROR, NLMSG_LENGTH, sizeof_inet_diag_msg, NLMSG_ALIGN, nlDone,
        parse_response]
    rw [e, key]
    exact ⟨rfl, rfl⟩

/-- C5 witness: the theorem at a concrete attribute claiming 200 bytes
inside a 4-byte region, over the driver's starting store. -/
theorem c5_malformed_attr_witness :
    parse_response diag0 [⟨200, 2, 7⟩] 4 store0 = store0 ∧
    sockdiagLoop [⟨108, [⟨92, SOCK_DIAG_BY_FAMILY, 0, diag0, [⟨200, 2, 7⟩]⟩, nlDone]⟩]
        store0 = .ok store0 := by
  have h := c5_malformed_attr diag0 ⟨200, 2, 7⟩ [] 4 store0
  exact ⟨h.1 (Or.inl (by norm_num)), (h.2 (by norm_num)).1⟩

/-! ## C7: the receive loop over a synthetic envelope stream -/

/-- An envelope carrying one INET_DIAG_INFO attribute: body = 72-byte
connection record + 4-byte attribute header + 104-byte tcp_info block,
so nlmsg_len = 196 and the attribute's rta_len = 108. -/
def infoEnv (m : inet_diag_msg) (t : Nat) : nlmsg :=
  { nlmsg_len := 196, nlmsg_type := SOCK_DIAG_BY_FAMILY, err := 0, msg := m
    attrs := [⟨108, INET_DIAG_INFO, t⟩] }

lemma processMsgs_done_mem :
    ∀ (msgs : List nlmsg) (n : Int) (s : Samples),
      (processMsgs msgs n s).1 = .done →
      ∃ m ∈ msgs, m.nlmsg_type = NLMSG_DONE := by
  intro msgs
  induction msgs with
  | nil => intro n s h; simp [processMsgs] at h
  | cons m rest ih =>
    intro n s h
    simp only [processMsgs] at h
    by_cases hok : NLMSG_OKb m n = true
    · rw [if_pos hok] at h
      by_cases hd : m.nlmsg_type = NLMSG_DONE
      · exact ⟨m, List.mem_cons_self m rest, hd⟩
      · rw [if_neg hd] at h
        by_cases he : m.nlmsg_type = NLMSG_ERROR
        · rw [if_pos he] at h
          split at h <;> simp at h
        · rw [if_neg he] at h
          obtain ⟨m2, hm2, ht2⟩ := ih _ _ h
          exact ⟨m2, List.mem_cons_of_mem m hm2, ht2⟩
    · rw [if_neg hok] at h
      simp at h

lemma sockdiagLoop_ok_done :
    ∀ (dgrams : List datagram) (s s1 : Samples),
      sockdiagLoop dgrams s = .ok s1 →
      ∃ d ∈ dgrams, ∃ m ∈ d.msgs, m.nlmsg_type = NLMSG_DONE := by
  intro dgrams
  induction dgrams with
  | nil => intro s s1 h; simp [sockdiagLoop] at h
  | cons d rest ih =>
    intro s s1 h
    simp only [sockdiagLoop] at h
    rcases hp : processMsgs d.msgs (d.n : Int) s with ⟨sig, s2⟩
    rw [hp] at h
    cases sig with
    | done =>
      have : (processMsgs d.msgs (d.n : Int) s).1 = .done := by rw [hp]
      obtain ⟨m, hm, ht⟩ := processMsgs_done_mem d.msgs (d.n : Int) s this
      exact ⟨d, List.mem_cons_self d rest, m, hm, ht⟩
    | fail e => simp at h
    | more =>
      obtain ⟨d2, hd2, m, hm, ht⟩ := ih s2 s1 h
      exact ⟨d2, List.mem_cons_of_mem d hd2, m, hm, ht⟩

/-- C7: for the envelope stream [info, info, end-of-dump] delivered in one
datagram, a sampling call parses both info envelopes before any further
receive and returns the two samples in receive order with length 2,
whatever datagrams would have followed - and, in general, the loop
returns success only when an end-of-dump envelope was observed in some
received datagram. -/
theorem c7_stream (m1 m2 : inet_diag_msg) (t1 t2 : Nat)
    (rest : List datagram) (s : Samples) :
    sockdiag_sample true (⟨408, [infoEnv m1 t1, infoEnv m2 t2, nlDone]⟩ :: rest) s =
      .ok { sample := [mkSample m1 t1, mkSample m2 t2], len := 2, cap := 16 } ∧
    (∀ (dgrams : List datagram) (s0 s1 : Samples),
      sockdiagLoop dgrams s0 = .ok s1 →
      ∃ d ∈ dgrams, ∃ m ∈ d.msgs, m.nlmsg_type = NLMSG_DONE) := by
  constructor
  · show sockdiagLoop _ store0 = _
    simp only [sockdiagLoop, processMsgs, infoEnv]
    norm_num [NLMSG_OKb, NLMSG_HDRLEN, SOCK_DIAG_BY_FAMILY, NLMSG_DONE,
      NLMSG_ERROR, NLMSG_LENGTH, sizeof_inet_diag_msg, NLMSG_ALIGN, nlDone,
      parse_response, parseAttrs, RTA_OKb, RTA_ALIGN, INET_DIAG_INFO,
      appendSample, grow, store0, emptySamples, INIT_CAP]
  · exact sockdiagLoop_ok_done

/-- C7 witness: the general end-of-dump clause of the theorem discharged
at the one-datagram stream containing only the done envelope. -/
theorem c7_stream_witness :
    ∃ d ∈ [(⟨16, [nlDone]⟩ : datagram)], ∃ m ∈ d.msgs,
      m.nlmsg_type = NLMSG_DONE :=
  (c7_stream diag0 diag0 0 0 [] store0).2 [⟨16, [nlDone]⟩] store0 store0 rfl

/-! ## C8: the constructed request -/

lemma testBit_two : ∀ k : Nat, Nat.testBit 2 k = decide (k = 1)
  | 0 => by decide
  | 1 => by decide
  | k + 2 => by
    have h2 : (2 : Nat) < 2 ^ (k + 2) := by
      have : (2 : Nat) ^ 2 ≤ 2 ^ (k + 2) :=
        Nat.pow_le_pow_right (by norm_num) (by omega)
      omega
    rw [Nat.testBit_eq_false_of_lt h2]
    simp

/-- C8: for every address family the built request selects that family
with protocol TCP, its state bitmask has exactly the bit for kernel state
TCP_ESTABLISHED = 1 set and no other, its extension bitmask has the bit
for extension index INET_DIAG_INFO set, and its envelope carries the
NLM_F_DUMP and NLM_F_REQUEST flags, the SOCK_DIAG_BY_FAMILY type and the
fixed size NLMSG_LENGTH(sizeof(struct inet_diag_req_v2)); send_request is
a total function of the family, so construction itself cannot fail - only
the underlying send can. -/
theorem c8_request (family : Nat) :
    (send_request family).2.sdiag_family = family ∧
    (send_request family).2.sdiag_protocol = IPPROTO_TCP ∧
    (∀ k, (send_request family).2.idiag_states.testBit k =
      decide (k = TCP_ESTABLISHED)) ∧
    (send_request family).2.idiag_ext.testBit (INET_DIAG_INFO - 1) = true ∧
    (send_request family).1.nlmsg_flags = NLM_F_DUMP ||| NLM_F_REQUEST ∧
    (send_request family).1.nlmsg_type = SOCK_DIAG_BY_FAMILY ∧
    (send_request family).1.nlmsg_len = NLMSG_LENGTH sizeof_inet_diag_req_v2 := by
  refine ⟨rfl, rfl, ?_,
    by show Nat.testBit (1 <<< (INET_DIAG_INFO - 1)) (INET_DIAG_INFO - 1) = true
       decide,
    rfl, rfl, rfl⟩
  intro k
  show Nat.testBit (1 <<< TCP_ESTABLISHED) k = decide (k = TCP_ESTABLISHED)
  have e : (1 <<< TCP_ESTABLISHED : Nat) = 2 := by decide
  rw [e]
  exact testBit_two k

/-! ## C10: invariants of every successful call -/

/-- The store invariant the receive loop maintains: length within
capacity, capacity at least the initial 16. -/
def storeInv (s : Samples) : Prop := s.len ≤ s.cap ∧ 16 ≤ s.cap

lemma appendSample_inv (s : Samples) (x : Sample) (h : storeInv s) :
    storeInv (appendSample s x) := by
  obtain ⟨h1, h2⟩ := h
  by_cases hc : s.len < s.cap
  · refine ⟨?_, ?_⟩
    · rw [appendSample_len, appendSample_cap_of_lt s x hc]; omega
    · rw [appendSample_cap_of_lt s x hc]; exact h2
  · have he : s.len = s.cap := by omega
    have hg : (grow s).cap = 2 * s.cap := by
      unfold grow; rw [if_neg (by omega)]; exact Nat.mul_comm s.cap 2
    refine ⟨?_, ?_⟩
    · rw [appendSample_len, appendSample_cap_of_eq s x he, hg]; omega
    · rw [appendSample_cap_of_eq s x he, hg]; omega

lemma parseAttrs_inv (msg : inet_diag_msg) :
    ∀ (attrs : List rtattr) (rtalen : Int) (s : Samples),
      storeInv s → storeInv (parseAttrs msg attrs rtalen s) := by
  intro attrs
  induction attrs with
  | nil => intro rtalen s h; exact h
  | cons a rest ih =>
    intro rtalen s h
    simp only [parseAttrs]
    split
    · apply ih
      split
      · exact appendSample_inv s _ h
      · exact h
    · exact h

lemma processMsgs_inv :
    ∀ (msgs : List nlmsg) (n : Int) (s : Samples),
      storeInv s → storeInv (processMsgs msgs n s).2 := by
  intro msgs
  induction msgs with
  | nil => intro n s h; exact h
  | cons m rest ih =>
    intro n s h
    simp only [processMsgs]
    split
    · split
      · exact h
      · split
        · split <;> exact h
        · apply ih
          split
          · exact parseAttrs_inv m.msg m.attrs _ s h
          · exact h
    · exact h

lemma sockdiagLoop_ok_inv :
    ∀ (dgrams : List datagram) (s s1 : Samples),
      storeInv s → sockdiagLoop dgrams s = .ok s1 → storeInv s1 := by
  intro dgrams
  induction dgrams with
  | nil => intro s s1 _ h; simp [sockdiagLoop] at h
  | cons d rest ih =>
    intro s s1 hs h
    simp only [sockdiagLoop] at h
    rcases hp : processMsgs d.msgs (d.n : Int) s with ⟨sig, s2⟩
    rw [hp] at h
    have h2 : storeInv s2 := by
      have := processMsgs_inv d.msgs (d.n : Int) s hs
      rw [hp] at this
      exact this
    cases sig with
    | done =>
      simp only [SampleResult.ok.injEq] at h
      rw [← h]
      exact h2
    | fail e => simp at h
    | more => exact ih s2 s1 h2 h

lemma parseAttrs_noinfo (msg : inet_diag_msg) :
    ∀ (attrs : List rtattr) (rtalen : Int) (s : Samples),
      (∀ a ∈ attrs, a.rta_type ≠ INET_DIAG_INFO) →
      parseAttrs msg attrs rtalen s = s := by
  intro attrs
  induction attrs with
  | nil => intro rtalen s _; rfl
  | cons a rest ih =>
    intro rtalen s h
    simp only [parseAttrs]
    split
    · rw [if_neg (h a (List.mem_cons_self a rest))]
      exact ih _ s (fun b hb => h b (List.mem_cons_of_mem a hb))
    · rfl

lemma processMsgs_noinfo :
    ∀ (msgs : List nlmsg) (n : Int) (s : Samples),
      (∀ m ∈ msgs, ∀ a ∈ m.attrs, a.rta_type ≠ INET_DIAG_INFO) →
      (processMsgs msgs n s).2 = s := by
  intro msgs
  induction msgs with
  | nil => intro n s _; rfl
  | cons m rest ih =>
    intro n s h
    simp only [processMsgs]
    split
    · split
      · rfl
      · split
        · split <;> rfl
        · rw [show (if 0 < (m.nlmsg_len : Int) -
              (NLMSG_LENGTH sizeof_inet_diag_msg : Int) then
              parse_response m.msg m.attrs _ s else s) = s from ?_]
          · exact ih _ s (fun m2 hm2 => h m2 (List.mem_cons_of_mem m hm2))
          · split
            · exact parseAttrs_noinfo m.msg m.attrs _ s
                (h m (List.mem_cons_self m rest))
            · rfl
    · rfl

lemma sockdiagLoop_noinfo :
    ∀ (dgrams : List datagram) (s s1 : Samples),
      (∀ d ∈ dgrams, ∀ m ∈ d.msgs, ∀ a ∈ m.attrs,
        a.rta_type ≠ INET_DIAG_INFO) →
      sockdiagLoop dgrams s = .ok s1 → s1 = s := by
  intro dgrams
  induction dgrams with
  | nil => intro s s1 _ h; simp [sockdiagLoop] at h
  | cons d rest ih =>
    intro s s1 hno h
    simp only [sockdiagLoop] at h
    rcases hp : processMsgs d.msgs (d.n : Int) s with ⟨sig, s2⟩
    rw [hp] at h
    have h2 : s2 = s := by
      have := processMsgs_noinfo d.msgs (d.n : Int) s
        (hno d (List.mem_cons_self d rest))
      rw [hp] at this
      exact this
    cases sig with
    | done =>
      simp only [SampleResult.ok.injEq] at h
      rw [← h, h2]
    | fail e => simp at h
    | more =>
      rw [ih s2 s1 (fun d2 hd2 => hno d2 (List.mem_cons_of_mem d hd2)) h, h2]

/-- C10: every successful return of sockdiag_sample satisfies
len ≤ cap and 16 ≤ cap (the store is grown once to the initial capacity
before any receive); a successful call in which no INET_DIAG_INFO
attribute is decoded returns the store with length 0, capacity 16 and no
written record. -/
theorem c10_success_invariant (sendOk : Bool) (dgrams : List datagram)
    (s s1 : Samples) (h : sockdiag_sample sendOk dgrams s = .ok s1) :
    s1.len ≤ s1.cap ∧ 16 ≤ s1.cap ∧
    ((∀ d ∈ dgrams, ∀ m ∈ d.msgs, ∀ a ∈ m.attrs,
        a.rta_type ≠ INET_DIAG_INFO) →
      s1.len = 0 ∧ s1.cap = 16 ∧ s1.sample = []) := by
  cases sendOk with
  | false => simp [sockdiag_sample] at h
  | true =>
    rw [show sockdiag_sample true dgrams s = sockdiagLoop dgrams store0
      from rfl] at h
    have hinv := sockdiagLoop_ok_inv dgrams store0 s1
      ⟨by decide, by decide⟩ h
    refine ⟨hinv.1, hinv.2, ?_⟩
    intro hno
    rw [sockdiagLoop_noinfo dgrams store0 s1 hno h]
    exact ⟨rfl, rfl, rfl⟩

/-- C10 witness: the theorem discharged at a call that receives only the
end-of-dump envelope, starting from a caller struct still holding stale
records. -/
theorem c10_success_invariant_witness :
    store0.len ≤ store0.cap ∧ 16 ≤ store0.cap ∧ store0.len = 0 ∧
    store0.cap = 16 := by
  have h := c10_success_invariant true [⟨16, [nlDone]⟩] dirtyStore store0 rfl
  have h3 := h.2.2 (by decide)
  exact ⟨h.1, h.2.1, h3.1, h3.2.1⟩
